import Mathlib

/-!
Verification development for the `postman-vscode-lint` repository.

The definitions below are a shallow embedding of the TypeScript sources:
* `server/src/linting/governance-scorer.ts` (`GovernanceScorer`:
  `executeWithTempFile`, `scoreSpecFile`, `normalizeSeverity`,
  `parseStdoutToIssuesAndSummary`, `summarizeIssues`, `computeScore`),
* `server/src/server.ts` (`PostmanLintServer`: `validateTextDocument`,
  `lintDocumentContent`, `isSupportedFile`, `isOpenAPIContent`,
  `onDidChangeDocument`),
* the shared package (`toDiagnostic`, `createRange`, `toVSCodeSeverity`,
  `PostmanLintServerSettings`, `DEFAULT_SETTINGS`).

Strings are processed as `List Char` (JavaScript string primitives such as
`split`, `trim`, `toLowerCase`, `includes` are re-implemented structurally on
character lists); JavaScript numbers are modelled as `Nat`/`ℚ` (all arithmetic
performed by the scorer stays well inside the exactly-representable range,
and score weights are modelled exactly as rationals).
-/

namespace PostmanLint

/-! ### Character-list utilities (JavaScript string primitives) -/

/-- JavaScript `hay.includes(needle)` on character lists. -/
def containsSub (needle : List Char) : List Char → Bool
  | [] => needle.isEmpty
  | c :: rest => needle.isPrefixOf (c :: rest) || containsSub needle rest

/-- JavaScript `s.includes(ch)` for a single character. -/
def containsChar (ch : Char) (l : List Char) : Bool :=
  l.any (· = ch)

/-- JavaScript `s.split(sep)` for a one-character separator (keeps empty
pieces, exactly like `String.prototype.split`). -/
def splitOnChar (sep : Char) : List Char → List (List Char)
  | [] => [[]]
  | c :: rest =>
    if c = sep then
      [] :: splitOnChar sep rest
    else
      match splitOnChar sep rest with
      | [] => [[c]]
      | piece :: pieces => (c :: piece) :: pieces

/-- JavaScript `s.trim()`: drop leading and trailing whitespace. -/
def trimCL (l : List Char) : List Char :=
  ((l.dropWhile Char.isWhitespace).reverse.dropWhile Char.isWhitespace).reverse

/-- JavaScript `s.toLowerCase()` (ASCII case folding, which is all the
severity tokens and headers ever use). -/
def toLowerCL (l : List Char) : List Char :=
  l.map Char.toLower

/-- Digit run to a natural number, the effect of JavaScript `parseInt` on a
string of decimal digits. -/
def digitsToNat (l : List Char) : Nat :=
  l.foldl (fun n c => n * 10 + (c.toNat - '0'.toNat)) 0

/-- JavaScript `\w` word character: letter, digit or underscore. -/
def isWordChar (c : Char) : Bool :=
  c.isAlphanum || c = '_'

/-! ### Data model (shared package `PostmanIssue` / `IssueSummary`) -/

/-- The closed four-level severity enumeration of `PostmanIssue.severity`. -/
inductive Severity : Type
  | error
  | warn
  | info
  | hint
deriving DecidableEq, Repr

/-- Canonical string of a severity, the literal stored in the TS field. -/
def Severity.canon : Severity → List Char
  | .error => "error".data
  | .warn => "warn".data
  | .info => "info".data
  | .hint => "hint".data

/-- One governance violation record (`PostmanIssue`). -/
structure PostmanIssue : Type where
  severity : Severity
  line : Nat
  column : Nat
  message : String
  rule : String
  path : String
deriving DecidableEq, Repr

/-- Aggregate counts (`IssueSummary`). -/
structure IssueSummary : Type where
  total : Nat
  error : Nat
  warn : Nat
  info : Nat
  hint : Nat
deriving DecidableEq, Repr

/-! ### `GovernanceScorer.normalizeSeverity` -/

/-- Embedding of `normalizeSeverity`: lower-case and trim the token, then
map the recognized spellings; everything else (including the empty string,
which is falsy in JS and short-circuits to `'hint'`) yields `hint`. -/
def normalizeSeverity (s : List Char) : Severity :=
  let cleaned := trimCL (toLowerCL s)
  if cleaned = "error".data ∨ cleaned = "errors".data then .error
  else if cleaned = "warn".data ∨ cleaned = "warning".data ∨ cleaned = "warnings".data then .warn
  else if cleaned = "info".data ∨ cleaned = "information".data then .info
  else .hint

/-! ### `GovernanceScorer.summarizeIssues` -/

/-- Loop body of `summarizeIssues`: bump the bucket of the normalized
severity. -/
def summarizeStep (s : IssueSummary) (issue : PostmanIssue) : IssueSummary :=
  match normalizeSeverity issue.severity.canon with
  | .error => { s with error := s.error + 1 }
  | .warn => { s with warn := s.warn + 1 }
  | .info => { s with info := s.info + 1 }
  | .hint => { s with hint := s.hint + 1 }

/-- Embedding of `summarizeIssues`: `total` is set to the list length up
front, then the loop re-counts every issue by normalized severity. -/
def summarizeIssues (issues : List PostmanIssue) : IssueSummary :=
  issues.foldl summarizeStep
    { total := issues.length, error := 0, warn := 0, info := 0, hint := 0 }

/-! ### `GovernanceScorer.computeScore` -/

/-- Per-severity deduction weight (`error −10`, `warn −2.5`, `info −0.5`,
`hint −0.05`), modelled exactly in `ℚ`. -/
def severityDeduction : Severity → ℚ
  | .error => 10
  | .warn => 5 / 2
  | .info => 1 / 2
  | .hint => 1 / 20

/-- JavaScript `Math.round`: half-up rounding, i.e. `⌊x + 1/2⌋`. -/
def jsRound (q : ℚ) : ℤ :=
  ⌊q + 1 / 2⌋

/-- Embedding of `computeScore`: start at `100`, subtract a weight per issue
by normalized severity, then `Math.max(0, Math.round(score * 100) / 100)`. -/
def computeScore (issues : List PostmanIssue) : ℚ :=
  let raw : ℚ :=
    issues.foldl
      (fun acc issue => acc - severityDeduction (normalizeSeverity issue.severity.canon))
      100
  max 0 ((jsRound (raw * 100) : ℚ) / 100)

/-! ### ANSI escape stripping (`stdout.replace(/\x1b\[[0-9;]*m/g, '')`) -/

/-- After `ESC [`, consume `[0-9;]*` and a closing `m`; `none` when the
escape sequence is not of that shape (the regex then does not match). -/
def ansiTail : List Char → Option (List Char)
  | [] => none
  | c :: rest =>
    if c = 'm' then some rest
    else if c.isDigit || c = ';' then ansiTail rest
    else none

/-- Left-to-right scan removing every `ESC [ [0-9;]* m` sequence. The `fuel`
argument only makes the recursion structural: every recursive call consumes
at least one character, so a fuel equal to the input length never runs out
(the `0` case is unreachable when starting from `stripAnsi`). -/
def stripAnsiFuel : Nat → List Char → List Char
  | 0, l => l
  | _ + 1, [] => []
  | fuel + 1, c :: rest =>
    if c = '\x1b' then
      match rest with
      | '[' :: tail =>
        match ansiTail tail with
        | some rem => stripAnsiFuel fuel rem
        | none => c :: stripAnsiFuel fuel rest
      | _ => c :: stripAnsiFuel fuel rest
    else c :: stripAnsiFuel fuel rest

/-- Embedding of the global ANSI-stripping replace
`stdout.replace(/\x1b\[[0-9;]*m/g, '')`. -/
def stripAnsi (l : List Char) : List Char :=
  stripAnsiFuel l.length l

/-! ### Table parsing (`parseStdoutToIssuesAndSummary`, first phase) -/

/-- The literal `Validation Type:` header token. -/
def vtToken : List Char := "validation type:".data

/-- Try the pattern `Validation Type:\s*(\w+)` (case-insensitively) at the
head of `l`: the header token, then optional whitespace, then a non-empty
run of word characters. -/
def matchVTAt (l : List Char) : Option (List Char) :=
  if vtToken.isPrefixOf (toLowerCL l) then
    let rest := (l.drop vtToken.length).dropWhile Char.isWhitespace
    let word := rest.takeWhile isWordChar
    if word.isEmpty then none else some word
  else none

/-- First (leftmost) match of `/Validation Type:\s*(\w+)/i` in the line,
returning the captured word. -/
def matchVT : List Char → Option (List Char)
  | [] => none
  | c :: rest =>
    match matchVTAt (c :: rest) with
    | some w => some w
    | none => matchVT rest

/-- Parse the cell `range` against `^(\d+):(\d+)$`; on a match return
`(line, column)`, otherwise both default to `0` at the use site. -/
def parseRange (cell : List Char) : Option (Nat × Nat) :=
  match splitOnChar ':' cell with
  | [a, b] =>
    if !a.isEmpty && a.all Char.isDigit && !b.isEmpty && b.all Char.isDigit then
      some (digitsToNat a, digitsToNat b)
    else none
  | _ => none

/-- Running state of the line loop: accumulated issues and the current
validation category (initially `"governance"`). -/
structure ParseState : Type where
  issues : List PostmanIssue
  category : List Char
deriving Repr

/-- Loop body of the table phase of `parseStdoutToIssuesAndSummary`,
processing one line. -/
def parseLine (st : ParseState) (line : List Char) : ParseState :=
  if containsSub "Validation Type:".data line then
    match matchVT line with
    | some w => { st with category := toLowerCL w }
    | none => st
  else if !containsChar '│' line then st
  else
    let row := ((splitOnChar '│' line).map trimCL).filter (fun cell => !cell.isEmpty)
    if row.any (fun cell =>
        containsSub "Range".data cell || containsSub "Severity".data cell ||
        containsSub "─".data cell) then
      st
    else
      match row with
      | range :: severity :: description :: rest =>
        let pathStr := rest.headD []
        let pos := (parseRange range).getD (0, 0)
        { st with
          issues := st.issues ++
            [{ severity := normalizeSeverity severity
               rule := (st.category ++ "-rule".data).asString
               message := description.asString
               path := pathStr.asString
               line := pos.1
               column := pos.2 }] }
      | _ => st

/-- All issues produced by the table phase over the cleaned text. -/
def tableIssues (clean : List Char) : List PostmanIssue :=
  ((splitOnChar '\n' clean).foldl parseLine
    { issues := [], category := "governance".data }).issues

/-! ### Fallback summary-sentence parsing (second phase) -/

/-- Consume a fixed token. -/
def eatToken (tok : List Char) (l : List Char) : Option (List Char) :=
  if tok.isPrefixOf l then some (l.drop tok.length) else none

/-- Consume `\d+` (greedy), returning its value. -/
def eatNat (l : List Char) : Option (Nat × List Char) :=
  let ds := l.takeWhile Char.isDigit
  if ds.isEmpty then none else some (digitsToNat ds, l.dropWhile Char.isDigit)

/-- Consume `\s+` (at least one whitespace character). -/
def eatWs1 : List Char → Option (List Char)
  | [] => none
  | c :: rest =>
    if c.isWhitespace then some (rest.dropWhile Char.isWhitespace) else none

/-- Consume an optional trailing `s` (the `s?` of `problems?`, `errors?`,
`warnings?`, `infos?`, `hints?`; the following literal never begins with
`s` or a word character, so greedy consumption coincides with the regex). -/
def eatOptS : List Char → List Char
  | 's' :: rest => rest
  | l => l

/-- Consume `(\d+)\s+<tok>s?`, the repeated shape of every count in the
summary sentence, returning the captured count. -/
def eatCount (tok : List Char) (l : List Char) : Option (Nat × List Char) := do
  let (k, l) ← eatNat l
  let l ← eatWs1 l
  let l ← eatToken tok l
  pure (k, eatOptS l)

/-- Consume `,\s*`, the separator between counts. -/
def eatCommaWs (l : List Char) : Option (List Char) := do
  let l ← eatToken ",".data l
  pure (l.dropWhile Char.isWhitespace)

/-- Try the core of the summary regex
`(\d+)\s+problems?\s*\((\d+)\s+errors?,\s*(\d+)\s+warnings?,\s*(\d+)\s+infos?,\s*(\d+)\s+hints?\)`
at the head of `l`, returning the five captures. -/
def matchSummaryAt (l : List Char) : Option (Nat × Nat × Nat × Nat × Nat) := do
  let (n, l) ← eatCount "problem".data l
  let l ← eatToken "(".data (l.dropWhile Char.isWhitespace)
  let (e, l) ← eatCount "error".data l
  let l ← eatCommaWs l
  let (w, l) ← eatCount "warning".data l
  let l ← eatCommaWs l
  let (i, l) ← eatCount "info".data l
  let l ← eatCommaWs l
  let (h, l) ← eatCount "hint".data l
  let _ ← eatToken ")".data l
  pure (n, e, w, i, h)

/-- Leftmost match of the summary sentence in the whole text (the regex's
lazy `.*?` prefix only shifts the start position, so `clean.match(...)`
captures from the leftmost position where the core pattern matches). -/
def matchSummary : List Char → Option (Nat × Nat × Nat × Nat × Nat)
  | [] => none
  | c :: rest =>
    match matchSummaryAt (c :: rest) with
    | some r => some r
    | none => matchSummary rest

/-- A generic position-less issue synthesized by the fallback path; the
severity goes through `normalizeSeverity` exactly as in the source. -/
def genericIssue (sevToken : List Char) (msg : String) : PostmanIssue :=
  { severity := normalizeSeverity sevToken
    rule := "governance-rule"
    message := msg
    path := ""
    line := 0
    column := 0 }

/-- The four per-bucket loops of the fallback path: `E` errors, then `W`
warnings, then `I` infos, then `H` hints. -/
def fallbackIssues (e w i h : Nat) : List PostmanIssue :=
  List.replicate e (genericIssue "error".data "Governance error") ++
  List.replicate w (genericIssue "warning".data "Governance warning") ++
  List.replicate i (genericIssue "info".data "Governance info") ++
  List.replicate h (genericIssue "hint".data "Governance hint")

/-! ### `parseStdoutToIssuesAndSummary` -/

/-- The issue list produced by `parseStdoutToIssuesAndSummary`: strip ANSI
codes, run the table phase over the lines; when it produced no issue, fall
back to the summary sentence. -/
def parsedIssues (stdout : String) : List PostmanIssue :=
  let clean := stripAnsi stdout.data
  let tIssues := tableIssues clean
  if tIssues.isEmpty then
    match matchSummary clean with
    | some (_, e, w, i, h) => fallbackIssues e w i h
    | none => []
  else tIssues

/-- Embedding of `parseStdoutToIssuesAndSummary`: the issue list together
with the summary re-counted from it by `summarizeIssues`. -/
def parseStdoutToIssuesAndSummary (stdout : String) :
    List PostmanIssue × IssueSummary :=
  (parsedIssues stdout, summarizeIssues (parsedIssues stdout))

/-! ### Shared package: `toDiagnostic`, `createRange`, `toVSCodeSeverity` -/

/-- An LSP position (`{ line, character }`). -/
structure Position : Type where
  line : Nat
  character : Nat
deriving DecidableEq, Repr

/-- An LSP range; the TS field `end` is spelled `stop` here because `end`
is a Lean keyword. -/
structure LspRange : Type where
  start : Position
  stop : Position
deriving DecidableEq, Repr

/-- An LSP diagnostic as the server builds it; `severity` is the LSP wire
number (1 error, 2 warning, 3 information, 4 hint); the synthetic
failure diagnostic carries no `code`, hence the `Option`. -/
structure Diagnostic : Type where
  range : LspRange
  severity : Nat
  message : String
  source : String
  code : Option String
deriving DecidableEq, Repr

/-- Embedding of `toVSCodeSeverity` (LSP severity numbers). -/
def toVSCodeSeverity : Severity → Nat
  | .error => 1
  | .warn => 2
  | .info => 3
  | .hint => 4

/-- Embedding of `createRange`: 1-based positions to 0-based, clamped at
`0`, widening the column into a one-character range. -/
def createRange (line column : Nat) : LspRange :=
  let adjustedLine := max 0 (line - 1)
  let adjustedColumn := max 0 (column - 1)
  { start := { line := adjustedLine, character := adjustedColumn }
    stop := { line := adjustedLine, character := adjustedColumn + 1 } }

/-- Embedding of `toDiagnostic` from the shared package. -/
def toDiagnostic (issue : PostmanIssue) : Diagnostic :=
  { range := createRange issue.line issue.column
    severity := toVSCodeSeverity issue.severity
    message := issue.message
    source := "postman-governance"
    code := some issue.rule }

/-! ### Shared package: settings -/

/-- Embedding of `PostmanLintServerSettings`. -/
structure PostmanLintServerSettings : Type where
  enable : Bool
  postmanCliPath : String
  lintOnSave : Bool
  lintOnChange : Bool
  lintOnChangeDelay : Nat
  maxFileSize : Nat
deriving DecidableEq, Repr

/-- Embedding of `DEFAULT_SETTINGS`. -/
def DEFAULT_SETTINGS : PostmanLintServerSettings :=
  { enable := true
    postmanCliPath := "postman"
    lintOnSave := true
    lintOnChange := false
    lintOnChangeDelay := 500
    maxFileSize := 1048576 }

/-! ### `GovernanceScorer.executeWithTempFile`: the spawned process -/

/-- The shell command string interpolated by `executeWithTempFile`:
`POSTMAN_API_KEY="<apiKey>" <command> <args...> > "<tempFile>" 2>&1`. -/
def buildFullCommand (command : List Char) (args : List (List Char))
    (apiKey tempFile : List Char) : List Char :=
  "POSTMAN_API_KEY=\"".data ++ apiKey ++ "\" ".data ++ command ++ " ".data ++
    (List.intercalate " ".data args) ++ " > \"".data ++ tempFile ++ "\" 2>&1".data

/-- The argument vector of the process spawned by `executeWithTempFile`:
`spawn('sh', ['-c', fullCommand], ...)`. -/
def spawnArgv (command : List Char) (args : List (List Char))
    (apiKey tempFile : List Char) : List (List Char) :=
  ["sh".data, "-c".data, buildFullCommand command args apiKey tempFile]

/-- The environment of the spawned process: the inherited environment with
`POSTMAN_API_KEY` overridden to the credential (the spread in
`env: { ...process.env, POSTMAN_API_KEY: apiKey }`). -/
def spawnEnv (procEnv : List (String × String)) (apiKey : String) :
    List (String × String) :=
  procEnv ++ [("POSTMAN_API_KEY", apiKey)]

/-- Error message produced by the 10-minute hard timeout. -/
def timeoutMessage : String := "Command timeout after 10 minutes"

/-- The possible outcomes of one `executeWithTempFile` invocation: the
child's `close` event fired and the captured output file was read (any
exit code, including non-zero), or the promise rejected with a spawn
error, the timeout, or an output-file read failure. -/
inductive ExecOutcome : Type
  | completed (stdout : String) (code : Option Int)
  | spawnError (msg : String)
  | timeout
  | readError (msg : String)
deriving DecidableEq, Repr

/-- Resolution of the `executeWithTempFile` promise: `ok` carries the
captured stdout and exit code, `error` the rejection message. -/
def execResult : ExecOutcome → Except String (String × Option Int)
  | .completed s c => .ok (s, c)
  | .spawnError m => .error m
  | .timeout => .error timeoutMessage
  | .readError m => .error ("Failed to read output file: " ++ m)

/-! ### `GovernanceScorer.scoreSpecFile` -/

/-- POSIX `path.basename` on the slash-separated paths the server builds. -/
def basename (p : String) : String :=
  ((splitOnChar '/' p.data).getLastD p.data).asString

/-- The all-zero `IssueSummary` used by the failure returns. -/
def zeroSummary : IssueSummary :=
  { total := 0, error := 0, warn := 0, info := 0, hint := 0 }

/-- Embedding of `ScoreResult` (the wall-clock `timestamp` field is not
modelled). -/
structure ScoreResult : Type where
  score : ℚ
  violations : List PostmanIssue
  violationCount : Nat
  issues : List PostmanIssue
  summary : IssueSummary
  api : String
  error : Option String
deriving DecidableEq, Repr

/-- The executable name hard-coded in `scoreSpecFile`'s call
`executeWithTempFile('postman', ['api', 'lint', specPath], this.apiKey)`. -/
def scoreSpecFileCommand : String := "postman"

/-- The argument list of the same call. -/
def scoreSpecFileArgs (specPath : String) : List String :=
  ["api", "lint", specPath]

/-- The argv of the process actually spawned on behalf of `scoreSpecFile`
for a given credential and captured-output temp file. -/
def scoreSpecFileArgv (specPath : String) (apiKey tempFile : List Char) :
    List (List Char) :=
  spawnArgv scoreSpecFileCommand.data
    ((scoreSpecFileArgs specPath).map String.data) apiKey tempFile

/-- The text `scoreSpecFile` goes on to parse: the captured stdout when the
inner call resolved, otherwise the rejection's message (the thrown `Error`
has no `stdout` property, so `(error as any).stdout || message || ''`
falls through to the message). -/
def execStdout (o : ExecOutcome) : String :=
  match execResult o with
  | .ok (s, _) => s
  | .error m => m

/-- Embedding of `scoreSpecFile`: total (every failure of the inner
invocation is caught and its message substituted for the output); the
`Error:`/`Couldn't parse` probe short-circuits to a zero result with an
error message, otherwise the output is parsed and scored and no `error`
field is set. -/
def scoreSpecFile (specPath : String) (o : ExecOutcome) : ScoreResult :=
  let stdout := execStdout o
  if containsSub "Error:".data stdout.data &&
      containsSub "Couldn't parse".data stdout.data then
    { score := 0, violations := [], violationCount := 0, issues := []
      summary := zeroSummary, api := basename specPath
      error := some "Failed to parse API specification" }
  else
    let pr := parseStdoutToIssuesAndSummary stdout
    { score := computeScore pr.1, violations := pr.1
      violationCount := pr.1.length, issues := pr.1, summary := pr.2
      api := basename specPath, error := none }

/-! ### Server: gating and `validateTextDocument` -/

/-- Embedding of `isSupportedFile`: the lower-cased URI must end in one of
the supported extensions. -/
def isSupportedFile (uri : String) : Bool :=
  [".yaml", ".yml", ".json"].any
    (fun ext => ext.data.isSuffixOf (toLowerCL uri.data))

/-- Embedding of `isOpenAPIContent`: the substring scan for the four
OpenAPI/Swagger markers. -/
def isOpenAPIContent (content : String) : Bool :=
  containsSub "openapi:".data content.data ||
  containsSub "\"openapi\"".data content.data ||
  containsSub "swagger:".data content.data ||
  containsSub "\"swagger\"".data content.data

/-- The synthetic diagnostic built in `validateTextDocument`'s catch block:
severity 1, range `(0,0)`–`(0,1)`, the failure message, the fixed source
tag, and no code. -/
def errorDiagnostic (err : String) : Diagnostic :=
  { range := { start := { line := 0, character := 0 }
               stop := { line := 0, character := 1 } }
    severity := 1
    message := "Postman linting failed: " ++ err
    source := "postman-governance"
    code := none }

/-- How one validation run can go once the gates pass: writing the temp
file in `lintDocumentContent` throws (the only failure that escapes to
`validateTextDocument`'s catch), or the external tool is launched with
some `ExecOutcome` (whose failures `scoreSpecFile` absorbs). -/
inductive RunOutcome : Type
  | tempWriteFail (msg : String)
  | exec (o : ExecOutcome)
deriving DecidableEq, Repr

/-- Observable effect of one `validateTextDocument` call: whether the
external tool was launched, and the diagnostics publication
(`none` = no `sendDiagnostics` call at all; `some ds` = the document's
diagnostics are replaced wholesale by `ds`). -/
structure ValidateResult : Type where
  invoked : Bool
  published : Option (List Diagnostic)
deriving DecidableEq, Repr

/-- Embedding of `validateTextDocument` (with `lintDocumentContent` and
`scoreSpecFile` inlined): the four gates in source order, then either the
temp-file write failure reaching the catch block, or the parsed issues
mapped to diagnostics. -/
def validateTextDocument (s : PostmanLintServerSettings) (scorerReady : Bool)
    (uri content tempPath : String) (outcome : RunOutcome) : ValidateResult :=
  if s.enable = false ∨ scorerReady = false then
    { invoked := false, published := none }
  else if content.length > s.maxFileSize then
    { invoked := false, published := none }
  else if isSupportedFile uri = false then
    { invoked := false, published := none }
  else if isOpenAPIContent content = false then
    { invoked := false, published := some [] }
  else
    match outcome with
    | .tempWriteFail msg =>
      { invoked := false, published := some [errorDiagnostic msg] }
    | .exec o =>
      { invoked := true
        published := some ((scoreSpecFile tempPath o).issues.map toDiagnostic) }

/-! ### Server: debounce orchestration (`onDidChangeDocument`) -/

/-- One armed debounce timer: the document it will validate and the delay
it was armed with. The source keeps no handle to it (`setTimeout`'s return
value is discarded), so nothing can cancel it. -/
structure DebounceTimer : Type where
  doc : String
  delay : Nat
deriving DecidableEq, Repr

/-- Orchestrator state: the multiset of pending debounce timers (as a list)
and how many validation runs have been started. -/
structure OrchState : Type where
  pending : List DebounceTimer
  runs : Nat
deriving DecidableEq, Repr

/-- Embedding of `onDidChangeDocument`: when `lintOnChange` is set, arm one
more timer for `lintOnChangeDelay` milliseconds; nothing is cancelled. -/
def onDidChangeDocument (s : PostmanLintServerSettings) (st : OrchState)
    (doc : String) : OrchState :=
  if s.lintOnChange then
    { st with pending := st.pending ++ [{ doc := doc, delay := s.lintOnChangeDelay }] }
  else st

/-- Step relation of the orchestrator, read off the source's event
handlers: a content-change event (`onDidChangeDocument`), a pending timer
firing (removing it and starting a validation run), and a save event
(`onDidSaveDocument`, which starts a run directly when `lintOnSave` is set
and never touches the timers). There is no cancellation transition because
the source never stores or clears a debounce timer handle. -/
inductive OrchStep (s : PostmanLintServerSettings) : OrchState → OrchState → Prop
  | change (st : OrchState) (doc : String) :
      OrchStep s st (onDidChangeDocument s st doc)
  | fire (st : OrchState) (idx : Nat) (h : idx < st.pending.length) :
      OrchStep s st { pending := st.pending.eraseIdx idx, runs := st.runs + 1 }
  | save (st : OrchState) :
      OrchStep s st
        { st with runs := if s.lintOnSave then st.runs + 1 else st.runs }

/-- Reflexive-transitive closure of `OrchStep`. -/
inductive OrchReaches (s : PostmanLintServerSettings) :
    OrchState → OrchState → Prop
  | refl (st : OrchState) : OrchReaches s st st
  | tail {a b c : OrchState} :
      OrchReaches s a b → OrchStep s b c → OrchReaches s a c

/-- A burst of content-change events, in order. -/
def applyChangeEvents (s : PostmanLintServerSettings) (st : OrchState)
    (docs : List String) : OrchState :=
  docs.foldl (fun acc doc => onDidChangeDocument s acc doc) st

/-! ### Helper lemmas -/

/-- Normalizing the canonical spelling of a severity is the identity (the
`PostmanIssue.severity` field only ever holds canonical values, so the
re-normalization inside `summarizeIssues`/`computeScore` is idempotent). -/
theorem normalizeSeverity_canon (v : Severity) :
    normalizeSeverity v.canon = v := by
  cases v <;> decide

/-- Count of issues whose severity equals `v`. -/
def countSev (v : Severity) (issues : List PostmanIssue) : Nat :=
  issues.countP (fun i => decide (i.severity = v))

theorem countSev_nil (v : Severity) : countSev v [] = 0 := rfl

theorem countSev_cons (v : Severity) (i : PostmanIssue)
    (is : List PostmanIssue) :
    countSev v (i :: is) = countSev v is + (if i.severity = v then 1 else 0) := by
  simp [countSev, List.countP_cons]

theorem summarizeStep_fields (acc : IssueSummary) (i : PostmanIssue) :
    (summarizeStep acc i).total = acc.total ∧
    (summarizeStep acc i).error = acc.error + (if i.severity = .error then 1 else 0) ∧
    (summarizeStep acc i).warn = acc.warn + (if i.severity = .warn then 1 else 0) ∧
    (summarizeStep acc i).info = acc.info + (if i.severity = .info then 1 else 0) ∧
    (summarizeStep acc i).hint = acc.hint + (if i.severity = .hint then 1 else 0) := by
  unfold summarizeStep
  rw [normalizeSeverity_canon]
  cases i.severity <;> simp

theorem foldl_summarizeStep (issues : List PostmanIssue) :
    ∀ acc : IssueSummary,
      (issues.foldl summarizeStep acc).total = acc.total ∧
      (issues.foldl summarizeStep acc).error = acc.error + countSev .error issues ∧
      (issues.foldl summarizeStep acc).warn = acc.warn + countSev .warn issues ∧
      (issues.foldl summarizeStep acc).info = acc.info + countSev .info issues ∧
      (issues.foldl summarizeStep acc).hint = acc.hint + countSev .hint issues := by
  induction issues with
  | nil => intro acc; simp [countSev]
  | cons i is ih =>
    intro acc
    rw [List.foldl_cons]
    obtain ⟨h1, h2, h3, h4, h5⟩ := ih (summarizeStep acc i)
    obtain ⟨g1, g2, g3, g4, g5⟩ := summarizeStep_fields acc i
    refine ⟨by rw [h1, g1], ?_, ?_, ?_, ?_⟩ <;>
      simp only [h2, h3, h4, h5, g2, g3, g4, g5, countSev_cons] <;> omega

/-- The summary of any issue list: `total` is the length and each bucket is
the exact count of that severity. -/
theorem summarizeIssues_spec (issues : List PostmanIssue) :
    (summarizeIssues issues).total = issues.length ∧
    (summarizeIssues issues).error = countSev .error issues ∧
    (summarizeIssues issues).warn = countSev .warn issues ∧
    (summarizeIssues issues).info = countSev .info issues ∧
    (summarizeIssues issues).hint = countSev .hint issues := by
  unfold summarizeIssues
  obtain ⟨h1, h2, h3, h4, h5⟩ := foldl_summarizeStep issues
    { total := issues.length, error := 0, warn := 0, info := 0, hint := 0 }
  exact ⟨h1, by simpa using h2, by simpa using h3, by simpa using h4,
    by simpa using h5⟩

/-- The four severity counts partition the list. -/
theorem countSev_partition (issues : List PostmanIssue) :
    countSev .error issues + countSev .warn issues + countSev .info issues +
      countSev .hint issues = issues.length := by
  induction issues with
  | nil => simp [countSev]
  | cons i is ih =>
    simp only [countSev_cons, List.length_cons]
    cases h : i.severity <;> simp [h] <;> omega

/-- The second component of the parser's result is the summary re-counted
from the first. -/
theorem parse_snd (stdout : String) :
    (parseStdoutToIssuesAndSummary stdout).2 =
      summarizeIssues (parseStdoutToIssuesAndSummary stdout).1 := rfl

/-- Total deduction of an issue list (order-independent sum of weights). -/
def dedSum (issues : List PostmanIssue) : ℚ :=
  (issues.map (fun i => severityDeduction i.severity)).sum

theorem severityDeduction_nonneg (v : Severity) : 0 ≤ severityDeduction v := by
  cases v <;> norm_num [severityDeduction]

theorem dedSum_nonneg (issues : List PostmanIssue) : 0 ≤ dedSum issues := by
  refine List.sum_nonneg ?_
  intro x hx
  obtain ⟨i, _, rfl⟩ := List.mem_map.mp hx
  exact severityDeduction_nonneg _

theorem dedSum_append_singleton (issues : List PostmanIssue) (i : PostmanIssue) :
    dedSum (issues ++ [i]) = dedSum issues + severityDeduction i.severity := by
  simp [dedSum]

theorem foldl_deduction (issues : List PostmanIssue) :
    ∀ c : ℚ,
      issues.foldl
        (fun acc issue =>
          acc - severityDeduction (normalizeSeverity issue.severity.canon)) c =
        c - dedSum issues := by
  induction issues with
  | nil => intro c; simp [dedSum]
  | cons i is ih =>
    intro c
    rw [List.foldl_cons, ih, normalizeSeverity_canon]
    simp only [dedSum, List.map_cons, List.sum_cons]
    ring

/-- Closed form of `computeScore` in terms of the deduction sum. -/
theorem computeScore_eq (issues : List PostmanIssue) :
    computeScore issues =
      max 0 ((jsRound ((100 - dedSum issues) * 100) : ℚ) / 100) := by
  unfold computeScore
  rw [foldl_deduction]

theorem computeScore_nonneg (issues : List PostmanIssue) :
    0 ≤ computeScore issues := by
  rw [computeScore_eq]; exact le_max_left _ _

theorem computeScore_le_100 (issues : List PostmanIssue) :
    computeScore issues ≤ 100 := by
  rw [computeScore_eq]
  have hS := dedSum_nonneg issues
  have hfloor : jsRound ((100 - dedSum issues) * 100) ≤ 10000 := by
    unfold jsRound
    rw [Int.floor_le_iff]
    push_cast
    nlinarith
  refine max_le (by norm_num) ?_
  rw [div_le_iff₀ (by norm_num : (0 : ℚ) < 100)]
  calc ((jsRound ((100 - dedSum issues) * 100) : ℤ) : ℚ) ≤ ((10000 : ℤ) : ℚ) := by
        exact_mod_cast hfloor
    _ = 100 * 100 := by norm_num

theorem computeScore_append_le (issues : List PostmanIssue) (i : PostmanIssue) :
    computeScore (issues ++ [i]) ≤ computeScore issues := by
  rw [computeScore_eq, computeScore_eq]
  have hd : dedSum issues ≤ dedSum (issues ++ [i]) := by
    rw [dedSum_append_singleton]
    have := severityDeduction_nonneg i.severity
    linarith
  have hfloor : jsRound ((100 - dedSum (issues ++ [i])) * 100) ≤
      jsRound ((100 - dedSum issues) * 100) := by
    unfold jsRound
    apply Int.floor_le_floor
    nlinarith
  refine max_le_max le_rfl ?_
  rw [div_le_div_iff_of_pos_right (by norm_num : (0 : ℚ) < 100)]
  exact_mod_cast hfloor

/-- Score of the empty issue list. -/
theorem computeScore_nil : computeScore [] = 100 := by
  rw [computeScore_eq]
  have h0 : dedSum [] = 0 := by simp [dedSum]
  rw [h0]
  have : jsRound ((100 - 0) * 100) = 10000 := by
    unfold jsRound
    rw [Int.floor_eq_iff]
    all_goals norm_num
  rw [this]
  norm_num

theorem countSev_append (v : Severity) (a b : List PostmanIssue) :
    countSev v (a ++ b) = countSev v a + countSev v b := by
  simp [countSev, List.countP_append]

theorem countSev_replicate (v : Severity) (n : Nat) (i : PostmanIssue) :
    countSev v (List.replicate n i) = if i.severity = v then n else 0 := by
  induction n with
  | zero => simp [countSev]
  | succ n ih =>
    rw [List.replicate_succ, countSev_cons, ih]
    by_cases hc : i.severity = v <;> simp [hc]

/-- Per-bucket structure of the fallback issue list: its length is the sum
of the four counts and each bucket count is exact. -/
theorem fallbackIssues_spec (e w i h : Nat) :
    (fallbackIssues e w i h).length = e + w + i + h ∧
    countSev .error (fallbackIssues e w i h) = e ∧
    countSev .warn (fallbackIssues e w i h) = w ∧
    countSev .info (fallbackIssues e w i h) = i ∧
    countSev .hint (fallbackIssues e w i h) = h := by
  have hge : (genericIssue "error".data "Governance error").severity = Severity.error := by decide
  have hgw : (genericIssue "warning".data "Governance warning").severity = Severity.warn := by decide
  have hgi : (genericIssue "info".data "Governance info").severity = Severity.info := by decide
  have hgh : (genericIssue "hint".data "Governance hint").severity = Severity.hint := by decide
  unfold fallbackIssues
  refine ⟨by simp; omega, ?_, ?_, ?_, ?_⟩
  all_goals simp [countSev_append, countSev_replicate, hge, hgw, hgi, hgh]

/-- When the table phase finds nothing and the summary sentence matches,
the parsed issues are exactly the fallback issues. -/
theorem parsedIssues_of_fallback (s : String) (n e w i h : Nat)
    (ht : tableIssues (stripAnsi s.data) = [])
    (hm : matchSummary (stripAnsi s.data) = some (n, e, w, i, h)) :
    parsedIssues s = fallbackIssues e w i h := by
  simp only [parsedIssues]
  rw [ht, hm]
  simp

/-- Any orchestrator step weakly increases `runs + pending.length`: a
change event grows `pending`, a firing trades one pending timer for one
run, and a save event only adds runs. -/
theorem orchStep_measure_mono (s : PostmanLintServerSettings)
    (st st' : OrchState) (h : OrchStep s st st') :
    st.runs + st.pending.length ≤ st'.runs + st'.pending.length := by
  cases h with
  | change doc =>
    by_cases hc : s.lintOnChange <;> simp [onDidChangeDocument, hc]
  | fire idx hidx =>
    have hlen : (st.pending.eraseIdx idx).length = st.pending.length - 1 := by
      simp [List.length_eraseIdx, hidx]
    simp only [hlen]
    omega
  | save =>
    by_cases hsave : s.lintOnSave <;> simp [hsave]

/-! ### Claim theorems -/

/-- C1 (code evidence): the claim says the API key is passed to the child
only through an environment variable and never through the argument
vector. In fact `executeWithTempFile` interpolates the key into the
`sh -c` command string, so the spawned argv does contain the key and two
distinct keys give distinct argvs (the spec's "identical argv" reading
fails); the environment override is also present. -/
theorem claim1_apiKey_in_argv :
    ((scoreSpecFileArgv "/tmp/postman-lint-1.yaml" "PMAK-SECRET-1234".data
        "/tmp/postman-output-1.txt".data).any
      (fun arg => containsSub "PMAK-SECRET-1234".data arg)) = true ∧
    scoreSpecFileArgv "/tmp/postman-lint-1.yaml" "PMAK-SECRET-1234".data
        "/tmp/postman-output-1.txt".data ≠
      scoreSpecFileArgv "/tmp/postman-lint-1.yaml" "PMAK-OTHER-5678".data
        "/tmp/postman-output-1.txt".data ∧
    spawnEnv [] "PMAK-SECRET-1234" = [("POSTMAN_API_KEY", "PMAK-SECRET-1234")] := by
  decide

/-- C2 (counterexample): the claim says every failing validation run —
including a timeout — publishes exactly one synthetic diagnostic. On a
timeout the rejection is absorbed inside `scoreSpecFile` (its message is
parsed as tool output, yielding no issues), so `validateTextDocument`
publishes the empty diagnostic list, not a synthetic diagnostic. -/
theorem claim2_counterexample :
    (validateTextDocument DEFAULT_SETTINGS true "file:///spec.yaml"
        "openapi: 3.0.0" "/tmp/postman-lint-1.yaml" (.exec .timeout)).published =
      some [] ∧
    (validateTextDocument DEFAULT_SETTINGS true "file:///spec.yaml"
        "openapi: 3.0.0" "/tmp/postman-lint-1.yaml" (.exec .timeout)).published ≠
      some [errorDiagnostic timeoutMessage] := by
  decide

/-- C2 (amended): only a failure that escapes `lintDocumentContent` — the
temp-file write failure — reaches `validateTextDocument`'s catch block,
which then publishes exactly one synthetic diagnostic at position (0,0)
carrying the failure message with source `postman-governance`, replacing
the document's previous diagnostics; every `executeWithTempFile` outcome
(spawn error, non-zero exit, timeout, read failure) is instead absorbed by
`scoreSpecFile` and the parsed (possibly empty) diagnostics are published. -/
theorem claim2_amended (s : PostmanLintServerSettings)
    (uri content tmp msg : String)
    (h1 : s.enable = true) (h2 : content.length ≤ s.maxFileSize)
    (h3 : isSupportedFile uri = true) (h4 : isOpenAPIContent content = true) :
    validateTextDocument s true uri content tmp (.tempWriteFail msg) =
      { invoked := false, published := some [errorDiagnostic msg] } ∧
    (errorDiagnostic msg).range.start = { line := 0, character := 0 } ∧
    (errorDiagnostic msg).source = "postman-governance" ∧
    (errorDiagnostic msg).message = "Postman linting failed: " ++ msg ∧
    (∀ o : ExecOutcome,
      validateTextDocument s true uri content tmp (.exec o) =
        { invoked := true
          published := some ((scoreSpecFile tmp o).issues.map toDiagnostic) }) := by
  have hn : ¬ content.length > s.maxFileSize := by omega
  refine ⟨?_, rfl, rfl, rfl, fun o => ?_⟩ <;>
    simp [validateTextDocument, h1, h3, h4, hn]

/-- C2 (witness): the amended claim at a concrete gate-passing input with
a concrete temp-file write failure. -/
theorem claim2_witness :
    DEFAULT_SETTINGS.enable = true ∧
    ("openapi: 3.0.0" : String).length ≤ DEFAULT_SETTINGS.maxFileSize ∧
    isSupportedFile "file:///spec.yaml" = true ∧
    isOpenAPIContent "openapi: 3.0.0" = true ∧
    validateTextDocument DEFAULT_SETTINGS true "file:///spec.yaml"
        "openapi: 3.0.0" "/tmp/postman-lint-1.yaml"
        (.tempWriteFail "Error: ENOSPC: no space left on device") =
      { invoked := false
        published :=
          some [errorDiagnostic "Error: ENOSPC: no space left on device"] } :=
  ⟨by decide, by decide, by decide, by decide,
    (claim2_amended DEFAULT_SETTINGS "file:///spec.yaml" "openapi: 3.0.0"
      "/tmp/postman-lint-1.yaml" "Error: ENOSPC: no space left on device"
      (by decide) (by decide) (by decide) (by decide)).1⟩

/-- C3 (counterexample): the claim says the oversize case publishes an
empty diagnostic set. With `maxFileSize := 10` and a 14-character OpenAPI
document, `validateTextDocument` returns after a console warning without
calling `sendDiagnostics` at all: nothing is published, stale diagnostics
are left in place. -/
theorem claim3_counterexample :
    validateTextDocument { DEFAULT_SETTINGS with maxFileSize := 10 } true
        "file:///spec.yaml" "openapi: 3.0.0" "/tmp/postman-lint-1.yaml"
        (.exec (.completed "" none)) =
      { invoked := false, published := none } ∧
    (none : Option (List Diagnostic)) ≠ some [] := by
  decide

/-- C3 (amended): when linting is disabled (or the scorer uninitialized),
when the content exceeds `maxFileSize`, and when the extension is
unsupported, `validateTextDocument` skips the external tool without
publishing anything (the oversize case clears nothing); only the
marker-miss case publishes an empty diagnostic set. -/
theorem claim3_amended (s : PostmanLintServerSettings) (b : Bool)
    (uri content tmp : String) (o : RunOutcome) :
    ((s.enable = false ∨ b = false) →
      validateTextDocument s b uri content tmp o =
        { invoked := false, published := none }) ∧
    (s.enable = true → b = true → content.length > s.maxFileSize →
      validateTextDocument s b uri content tmp o =
        { invoked := false, published := none }) ∧
    (s.enable = true → b = true → content.length ≤ s.maxFileSize →
      isSupportedFile uri = false →
      validateTextDocument s b uri content tmp o =
        { invoked := false, published := none }) ∧
    (s.enable = true → b = true → content.length ≤ s.maxFileSize →
      isSupportedFile uri = true → isOpenAPIContent content = false →
      validateTextDocument s b uri content tmp o =
        { invoked := false, published := some [] }) := by
  refine ⟨?_, ?_, ?_, ?_⟩
  · intro h
    unfold validateTextDocument
    rw [if_pos h]
  · intro he hb hsize
    unfold validateTextDocument
    rw [if_neg (by simp [he, hb]), if_pos hsize]
  · intro he hb hsize hsup
    unfold validateTextDocument
    rw [if_neg (by simp [he, hb]), if_neg (by omega), if_pos hsup]
  · intro he hb hsize hsup hmark
    unfold validateTextDocument
    rw [if_neg (by simp [he, hb]), if_neg (by omega),
      if_neg (by simp [hsup]), if_pos hmark]

/-- C3 (witness): the amended claim at concrete inputs — the oversize case
(no publish) and the marker-miss case (empty publish). -/
theorem claim3_witness :
    ("openapi: 3.0.0" : String).length >
      ({ DEFAULT_SETTINGS with maxFileSize := 10 }).maxFileSize ∧
    validateTextDocument { DEFAULT_SETTINGS with maxFileSize := 10 } true
        "file:///spec.yaml" "openapi: 3.0.0" "/tmp/postman-lint-1.yaml"
        (.exec (.completed "" none)) =
      { invoked := false, published := none } ∧
    isOpenAPIContent "just: yaml" = false ∧
    validateTextDocument DEFAULT_SETTINGS true "file:///spec.yaml"
        "just: yaml" "/tmp/postman-lint-1.yaml" (.exec (.completed "" none)) =
      { invoked := false, published := some [] } :=
  ⟨by decide,
    (claim3_amended { DEFAULT_SETTINGS with maxFileSize := 10 } true
      "file:///spec.yaml" "openapi: 3.0.0" "/tmp/postman-lint-1.yaml"
      (.exec (.completed "" none))).2.1 rfl rfl (by decide),
    by decide,
    (claim3_amended DEFAULT_SETTINGS true "file:///spec.yaml" "just: yaml"
      "/tmp/postman-lint-1.yaml" (.exec (.completed "" none))).2.2.2
      rfl rfl (by decide) (by decide) (by decide)⟩

/-- C4 (code evidence): the claim says the executable used by
`scoreSpecFile` equals the configured `postmanCliPath` setting. The call
hard-codes the name `postman` — the args are `api lint <path>` as
described, but the command ignores the setting, so any non-default
configured path is not the one invoked. -/
theorem claim4_hardcoded_command :
    scoreSpecFileCommand = "postman" ∧
    scoreSpecFileArgs "/tmp/postman-lint-1.yaml" =
      ["api", "lint", "/tmp/postman-lint-1.yaml"] ∧
    scoreSpecFileCommand ≠
      ({ DEFAULT_SETTINGS with
          postmanCliPath := "/usr/local/bin/postman-cli" }).postmanCliPath := by
  decide

/-- C5: for every raw output, the parser's summary satisfies
`total = length issues` and the four buckets sum to `total`, on both the
table path and the fallback path (the summary is always re-counted from
the final issue list). -/
theorem claim5_summary_invariant (stdout : String) :
    (parseStdoutToIssuesAndSummary stdout).2.total =
      (parseStdoutToIssuesAndSummary stdout).1.length ∧
    (parseStdoutToIssuesAndSummary stdout).2.error +
      (parseStdoutToIssuesAndSummary stdout).2.warn +
      (parseStdoutToIssuesAndSummary stdout).2.info +
      (parseStdoutToIssuesAndSummary stdout).2.hint =
      (parseStdoutToIssuesAndSummary stdout).2.total := by
  rw [parse_snd]
  obtain ⟨h1, h2, h3, h4, h5⟩ :=
    summarizeIssues_spec (parseStdoutToIssuesAndSummary stdout).1
  exact ⟨h1, by rw [h1, h2, h3, h4, h5, countSev_partition]⟩

/-- C6: with `lintOnChange` set, every content-change event appends one
fresh timer (the previous ones stay armed — there is no cancellation
transition), any step that shrinks the pending set is a firing that starts
a run, `runs + pending` never decreases, a burst of N change events leaves
N more timers pending, and any reachable state with no pending timer has
started at least one run per previously pending timer. -/
theorem claim6_debounce (s : PostmanLintServerSettings)
    (hs : s.lintOnChange = true) :
    (∀ (st : OrchState) (doc : String),
      (onDidChangeDocument s st doc).pending =
        st.pending ++ [{ doc := doc, delay := s.lintOnChangeDelay }]) ∧
    (∀ st st' : OrchState, OrchStep s st st' →
      st'.pending.length < st.pending.length → st'.runs = st.runs + 1) ∧
    (∀ st st' : OrchState, OrchStep s st st' →
      st.runs + st.pending.length ≤ st'.runs + st'.pending.length) ∧
    (∀ (st : OrchState) (docs : List String),
      (applyChangeEvents s st docs).pending.length =
        st.pending.length + docs.length) ∧
    (∀ st st' : OrchState, OrchReaches s st st' → st'.pending = [] →
      st.runs + st.pending.length ≤ st'.runs) := by
  have harm : ∀ (st : OrchState) (doc : String),
      (onDidChangeDocument s st doc).pending =
        st.pending ++ [{ doc := doc, delay := s.lintOnChangeDelay }] := by
    intro st doc
    simp [onDidChangeDocument, hs]
  refine ⟨harm, ?_, orchStep_measure_mono s, ?_, ?_⟩
  · intro st st' h hlt
    cases h with
    | change doc => rw [harm st doc] at hlt; simp at hlt
    | fire idx hidx => rfl
    | save => simp at hlt
  · intro st docs
    induction docs generalizing st with
    | nil => simp [applyChangeEvents]
    | cons d ds ih =>
      have : applyChangeEvents s st (d :: ds) =
          applyChangeEvents s (onDidChangeDocument s st d) ds := rfl
      rw [this, ih, harm st d]
      simp
      omega
  · have mono : ∀ st st' : OrchState, OrchReaches s st st' →
        st.runs + st.pending.length ≤ st'.runs + st'.pending.length := by
      intro st st' hr
      induction hr with
      | refl => exact le_refl _
      | tail hab hbc ih => exact le_trans ih (orchStep_measure_mono s _ _ hbc)
    intro st st' hr hp
    have := mono st st' hr
    rw [hp] at this
    simpa using this

/-- C6 (witness): the debounce behaviour at a concrete configuration and a
burst of three edits from the empty state: three timers end up pending. -/
theorem claim6_witness :
    ({ DEFAULT_SETTINGS with lintOnChange := true }
        : PostmanLintServerSettings).lintOnChange = true ∧
    (applyChangeEvents { DEFAULT_SETTINGS with lintOnChange := true }
        { pending := [], runs := 0 }
        ["file:///a.yaml", "file:///a.yaml", "file:///a.yaml"]).pending.length =
      ({ pending := [], runs := 0 } : OrchState).pending.length +
        (["file:///a.yaml", "file:///a.yaml", "file:///a.yaml"]
          : List String).length :=
  ⟨rfl,
    (claim6_debounce { DEFAULT_SETTINGS with lintOnChange := true }
        rfl).2.2.2.1 { pending := [], runs := 0 }
      ["file:///a.yaml", "file:///a.yaml", "file:///a.yaml"]⟩

set_option maxRecDepth 40000 in
/-- C7: a raw table block whose single data row is
`4:12 │ error │ Missing description │ #/paths/~1foo/get` parses to exactly
one issue with severity `error`, line 4, column 12, that message, that
path, and rule `governance-rule` (whether or not the header and separator
rows are present). -/
theorem claim7_table_roundtrip :
    parseStdoutToIssuesAndSummary
        ("Range     │ Severity │ Description         │ Path\n" ++
         "──────────│──────────│─────────────────────│──────────\n" ++
         "4:12 │ error │ Missing description │ #/paths/~1foo/get") =
      ([{ severity := .error, line := 4, column := 12
          message := "Missing description", rule := "governance-rule"
          path := "#/paths/~1foo/get" }],
       { total := 1, error := 1, warn := 0, info := 0, hint := 0 }) ∧
    parseStdoutToIssuesAndSummary
        "4:12 │ error │ Missing description │ #/paths/~1foo/get" =
      ([{ severity := .error, line := 4, column := 12
          message := "Missing description", rule := "governance-rule"
          path := "#/paths/~1foo/get" }],
       { total := 1, error := 1, warn := 0, info := 0, hint := 0 }) := by
  decide

/-- C8: when the table phase finds no issue and the text matches the
summary sentence `N problems (E errors, W warnings, I infos, H hints)`,
the parser synthesizes exactly `E + W + I + H` generic position-less
issues whose bucket counts match the parsed counts. -/
theorem claim8_fallback (s : String) (n e w i h : Nat)
    (ht : tableIssues (stripAnsi s.data) = [])
    (hm : matchSummary (stripAnsi s.data) = some (n, e, w, i, h)) :
    (parseStdoutToIssuesAndSummary s).1 = fallbackIssues e w i h ∧
    (parseStdoutToIssuesAndSummary s).1.length = e + w + i + h ∧
    (parseStdoutToIssuesAndSummary s).2 =
      { total := e + w + i + h, error := e, warn := w, info := i, hint := h } := by
  have hp : (parseStdoutToIssuesAndSummary s).1 = fallbackIssues e w i h :=
    parsedIssues_of_fallback s n e w i h ht hm
  obtain ⟨l1, l2, l3, l4, l5⟩ := fallbackIssues_spec e w i h
  refine ⟨hp, by rw [hp, l1], ?_⟩
  rw [parse_snd, hp]
  obtain ⟨g1, g2, g3, g4, g5⟩ := summarizeIssues_spec (fallbackIssues e w i h)
  have : (summarizeIssues (fallbackIssues e w i h)).total = e + w + i + h := by
    rw [g1, l1]
  cases hsum : summarizeIssues (fallbackIssues e w i h)
  simp only [hsum] at this g2 g3 g4 g5
  simp only [this, g2, g3, g4, g5, l2, l3, l4, l5]

/-- C8 (witness): the claim's own concrete instance:
`3 problems (1 errors, 1 warnings, 0 infos, 1 hints)` with no table rows
yields 3 synthetic issues with counts error 1, warn 1, info 0, hint 1. -/
theorem claim8_witness :
    tableIssues (stripAnsi
      "3 problems (1 errors, 1 warnings, 0 infos, 1 hints)".data) = [] ∧
    matchSummary (stripAnsi
        "3 problems (1 errors, 1 warnings, 0 infos, 1 hints)".data) =
      some (3, 1, 1, 0, 1) ∧
    (parseStdoutToIssuesAndSummary
        "3 problems (1 errors, 1 warnings, 0 infos, 1 hints)").2 =
      { total := 1 + 1 + 0 + 1, error := 1, warn := 1, info := 0, hint := 1 } :=
  ⟨by decide, by decide,
    (claim8_fallback "3 problems (1 errors, 1 warnings, 0 infos, 1 hints)"
      3 1 1 0 1 (by decide) (by decide)).2.2⟩

/-- C9: for every issue list the computed score lies in `[0, 100]`, and
appending a further issue never increases it (the per-issue deductions are
non-negative and rounding and clamping are monotone). -/
theorem claim9_score_bounds_monotone (issues : List PostmanIssue)
    (i : PostmanIssue) :
    0 ≤ computeScore issues ∧ computeScore issues ≤ 100 ∧
    computeScore (issues ++ [i]) ≤ computeScore issues :=
  ⟨computeScore_nonneg issues, computeScore_le_100 issues,
    computeScore_append_le issues i⟩

/-- C10 (counterexample): the claim says every failed invocation yields
score 0 with a non-empty error message. On the 10-minute timeout the
rejection message is substituted for the tool output and parsed: no table
rows, no summary sentence, hence no issues — `scoreSpecFile` returns score
100 with no error field at all. -/
theorem claim10_counterexample :
    (scoreSpecFile "/tmp/postman-lint-1.yaml" .timeout).score = 100 ∧
    (scoreSpecFile "/tmp/postman-lint-1.yaml" .timeout).error = none := by
  have hc : (containsSub "Error:".data (execStdout .timeout).data &&
      containsSub "Couldn't parse".data (execStdout .timeout).data) = false := by
    decide
  have hp : (parseStdoutToIssuesAndSummary (execStdout .timeout)).1 = [] := by
    decide
  constructor
  · show (scoreSpecFile "/tmp/postman-lint-1.yaml" .timeout).score = 100
    simp only [scoreSpecFile, hc, Bool.false_eq_true, if_false]
    rw [hp]
    exact computeScore_nil
  · simp only [scoreSpecFile, hc, Bool.false_eq_true, if_false]

/-- C10 (amended): `scoreSpecFile` always returns normally (every inner
failure is caught); when the text it examines contains both `Error:` and
`Couldn't parse` it returns score 0, empty issue and violation lists, an
all-zero summary and the non-empty error message
`Failed to parse API specification`; but spawn errors, timeouts and
output-read failures do not take this branch — their messages are parsed
as output, typically yielding no issues, score 100 and no error field. -/
theorem claim10_amended (specPath : String) (o : ExecOutcome)
    (h1 : containsSub "Error:".data (execStdout o).data = true)
    (h2 : containsSub "Couldn't parse".data (execStdout o).data = true) :
    scoreSpecFile specPath o =
      { score := 0, violations := [], violationCount := 0, issues := []
        summary := zeroSummary, api := basename specPath
        error := some "Failed to parse API specification" } ∧
    "Failed to parse API specification" ≠ "" := by
  refine ⟨?_, by decide⟩
  simp [scoreSpecFile, h1, h2]

/-- C10 (witness): the amended claim at a concrete completed invocation
whose output contains both probe substrings. -/
theorem claim10_witness :
    containsSub "Error:".data
      (execStdout (.completed "Error: Couldn't parse the specification"
        (some 1))).data = true ∧
    scoreSpecFile "/tmp/postman-lint-2.yaml"
        (.completed "Error: Couldn't parse the specification" (some 1)) =
      { score := 0, violations := [], violationCount := 0, issues := []
        summary := zeroSummary, api := "postman-lint-2.yaml"
        error := some "Failed to parse API specification" } := by
  have h := claim10_amended "/tmp/postman-lint-2.yaml"
    (.completed "Error: Couldn't parse the specification" (some 1))
    (by decide) (by decide)
  refine ⟨by decide, ?_⟩
  rw [h.1]
  decide

end PostmanLint
